import Mathlib

/-!
Verification of the transservice core: the ledger-reader queries, the
reservation store's last-reservation lookup, the trigger-evaluation loop,
and the XML audit logger, shallowly embedded from the Go sources
(`dbutils` query layer and `logger/logger.go`).

Database tables are modelled as lists of row structures; SQL scalar
subqueries, `COALESCE(SUM(..), 0)`, `ORDER BY .. LIMIT 1` and `QueryRow.Scan`
failure (no row / NULL scan) are modelled explicitly.  Fallible Go calls
(`Scan` errors, `panic`) are modelled with `Option` / `Except`.
-/

namespace TransService

/-- Modelled from the spec: the `transaction_service/queries/models` package is
not part of the sources; the spec's data model fixes order-type ∈ BUY, SELL
(`models.BUY` / `models.SELL`). -/
inductive OrderType where
  | BUY
  | SELL
deriving DecidableEq, Repr

/-- One row of the `reservations(rid, username, symbol, shares, amount, type, time)`
table (§6 persistence interface, and the column list of `QueryReservation`). -/
structure Reservation where
  rid : Nat
  username : String
  symbol : String
  shares : Int
  amount : Int
  order : OrderType
  time : Nat
deriving DecidableEq, Repr

/-- One row of the `users(uid, username, money)` table. -/
structure UserRow where
  uid : Nat
  username : String
  money : Int
deriving DecidableEq, Repr

/-- One row of the `stocks(sid, username, symbol, shares)` table. -/
structure StockRow where
  sid : Nat
  username : String
  symbol : String
  shares : Int
deriving DecidableEq, Repr

/-- The relational store consumed through the `db *sql.DB` handle. -/
structure DB where
  users : List UserRow
  stocks : List StockRow
  reservations : List Reservation
deriving DecidableEq, Repr

/-- SQL `COALESCE(SUM(amount), 0)` over reservation rows. -/
def sumAmount : List Reservation → Int
  | [] => 0
  | r :: rs => r.amount + sumAmount rs

/-- SQL `COALESCE(SUM(shares), 0)` over reservation rows. -/
def sumResShares : List Reservation → Int
  | [] => 0
  | r :: rs => r.shares + sumResShares rs

/-- SQL `COALESCE(SUM(shares), 0)` over stock rows. -/
def sumStockShares : List StockRow → Int
  | [] => 0
  | s :: ss => s.shares + sumStockShares ss

/-- `QueryUserAvailableBalance`: runs
`SELECT (SELECT money FROM USERS WHERE username = $1) -
 (SELECT COALESCE(SUM(amount), 0) FROM RESERVATIONS WHERE username = $1 and type = $2)`
with `$2 = models.BUY` and scans the single result into an `int`.
The scalar subquery over `USERS` yields NULL when no row matches (and the
query errors when several match), and scanning NULL into a Go `int` fails,
so the call returns an error exactly when the username does not identify a
unique user row; this is `none` here. -/
def QueryUserAvailableBalance (db : DB) (username : String) : Option Int :=
  match db.users.filter (fun u => u.username == username) with
  | [u] => some (u.money -
      sumAmount (db.reservations.filter
        (fun r => r.username == username && r.order == OrderType.BUY)))
  | _ => none

/-- `QueryUserAvailableShares`: runs
`SELECT (SELECT COALESCE(SUM(shares), 0) FROM Stocks WHERE username = $1 and symbol = $2) -
 (SELECT COALESCE(SUM(shares), 0) FROM RESERVATIONS WHERE username = $1 and type = $3)`
with `$3 = models.SELL`.  Note that the `RESERVATIONS` subquery filters by
username and type only — it carries no `symbol` condition.  Both subqueries
are `COALESCE`d, so the scan always succeeds. -/
def QueryUserAvailableShares (db : DB) (username symbol : String) : Option Int :=
  some (sumStockShares (db.stocks.filter
          (fun s => s.username == username && s.symbol == symbol)) -
        sumResShares (db.reservations.filter
          (fun r => r.username == username && r.order == OrderType.SELL)))

/-- Spec-side reading (§4.1): confirmed shares held by the user in the symbol. -/
def confirmedShares (db : DB) (username symbol : String) : Int :=
  ((db.stocks.filter (fun s => s.username == username && s.symbol == symbol)).map
    StockRow.shares).sum

/-- Spec-side reading (§4.1, claim): outstanding SELL-type reservation shares of
the user *for that same symbol*. -/
def sellReservedSameSymbol (db : DB) (username symbol : String) : Int :=
  ((db.reservations.filter
      (fun r => r.username == username && r.symbol == symbol &&
                r.order == OrderType.SELL)).map Reservation.shares).sum

/-- Outstanding SELL-type reservation shares of the user across all symbols. -/
def sellReservedAllSymbols (db : DB) (username : String) : Int :=
  ((db.reservations.filter
      (fun r => r.username == username && r.order == OrderType.SELL)).map
    Reservation.shares).sum

/-- Spec-side reading (§4.1): sum of all outstanding BUY-type reservation
amounts of the user. -/
def buyReservedAmount (db : DB) (username : String) : Int :=
  ((db.reservations.filter
      (fun r => r.username == username && r.order == OrderType.BUY)).map
    Reservation.amount).sum

theorem sumAmount_eq_sum_map (l : List Reservation) :
    sumAmount l = (l.map Reservation.amount).sum := by
  induction l with
  | nil => rfl
  | cons r rs ih => simp [sumAmount, ih]

theorem sumResShares_eq_sum_map (l : List Reservation) :
    sumResShares l = (l.map Reservation.shares).sum := by
  induction l with
  | nil => rfl
  | cons r rs ih => simp [sumResShares, ih]

theorem sumStockShares_eq_sum_map (l : List StockRow) :
    sumStockShares l = (l.map StockRow.shares).sum := by
  induction l with
  | nil => rfl
  | cons s ss ih => simp [sumStockShares, ih]

/-- Helper: the shares query computes confirmed shares for the (user, symbol)
pair minus the user's SELL reservations over all symbols. -/
theorem availableShares_eq (db : DB) (u s : String) :
    QueryUserAvailableShares db u s =
      some (confirmedShares db u s - sellReservedAllSymbols db u) := by
  simp [QueryUserAvailableShares, confirmedShares, sellReservedAllSymbols,
    sumStockShares_eq_sum_map, sumResShares_eq_sum_map]

/-- Helper: the balance query on a uniquely matched user row. -/
theorem availableBalance_eq (db : DB) (u : String) (urow : UserRow)
    (h : db.users.filter (fun x => x.username == u) = [urow]) :
    QueryUserAvailableBalance db u = some (urow.money - buyReservedAmount db u) := by
  simp [QueryUserAvailableBalance, h, sumAmount_eq_sum_map, buyReservedAmount]

/-- Helper: the balance query fails when no user row matches. -/
theorem availableBalance_none (db : DB) (u : String)
    (h : db.users.filter (fun x => x.username == u) = []) :
    QueryUserAvailableBalance db u = none := by
  simp [QueryUserAvailableBalance, h]

/-- A ledger in which alice holds 10 confirmed shares of "A" and has one
outstanding SELL reservation of 5 shares on the *other* symbol "B". -/
def cexDB : DB :=
  { users := []
    stocks := [⟨1, "alice", "A", 10⟩]
    reservations := [⟨1, "alice", "B", 5, 0, OrderType.SELL, 0⟩] }

/-- C1 counterexample: with a SELL reservation on symbol "B" only, the claim
says `AvailableShares(alice, "A")` is `10 - 0 = 10`, but the query returns
`10 - 5 = 5`: the reservation subquery has no symbol filter. -/
theorem queryUserAvailableShares_ignores_symbol_cex :
    QueryUserAvailableShares cexDB "alice" "A" ≠
      some (confirmedShares cexDB "alice" "A" -
            sellReservedSameSymbol cexDB "alice" "A") := by
  decide

/-- C1 (amended): `QueryUserAvailableShares` returns the confirmed shares for
(username, symbol) minus the outstanding SELL-type reservation shares of that
user across ALL symbols, not only the queried symbol. -/
theorem queryUserAvailableShares_all_symbols (db : DB) (u s : String) :
    QueryUserAvailableShares db u s =
      some (confirmedShares db u s - sellReservedAllSymbols db u) :=
  availableShares_eq db u s

/-- C2: for a username matched by exactly one user row, the query returns that
user's confirmed cash minus the sum of all outstanding BUY-type reservation
amounts; for a username matching no user row, the NULL scalar subquery makes
the scan fail, i.e. the lookup fails. -/
theorem queryUserAvailableBalance_spec (db : DB) (u : String) :
    (∀ urow, db.users.filter (fun x => x.username == u) = [urow] →
      QueryUserAvailableBalance db u = some (urow.money - buyReservedAmount db u))
  ∧ (db.users.filter (fun x => x.username == u) = [] →
      QueryUserAvailableBalance db u = none) :=
  ⟨fun urow h => availableBalance_eq db u urow h,
   fun h => availableBalance_none db u h⟩

/-- A ledger for the balance-query witness: alice holds 10000 in cash with a
pending BUY reservation of 4000 and an unrelated SELL reservation. -/
def balDB : DB :=
  { users := [⟨1, "alice", 10000⟩]
    stocks := []
    reservations := [⟨1, "alice", "A", 0, 4000, OrderType.BUY, 0⟩,
                     ⟨2, "alice", "B", 3, 0, OrderType.SELL, 0⟩] }

theorem queryUserAvailableBalance_spec_witness :
    QueryUserAvailableBalance balDB "alice" = some 6000 ∧
    QueryUserAvailableBalance balDB "bob" = none := by
  constructor
  · have h := (queryUserAvailableBalance_spec balDB "alice").1 ⟨1, "alice", 10000⟩
      (by decide)
    rw [h]; decide
  · exact (queryUserAvailableBalance_spec balDB "bob").2 (by decide)

/-- A corrupted ledger: carol has 100 cash but 200 reserved for BUY, and 3
confirmed shares of "A" but 7 reserved for SELL. -/
def negDB : DB :=
  { users := [⟨1, "carol", 100⟩]
    stocks := [⟨1, "carol", "A", 3⟩]
    reservations := [⟨1, "carol", "A", 0, 200, OrderType.BUY, 0⟩,
                     ⟨2, "carol", "A", 7, 0, OrderType.SELL, 0⟩] }

/-- C3 counterexample: both queries hand the negative difference straight back
to the caller — no error is surfaced and nothing is clamped. -/
theorem available_negative_cex :
    QueryUserAvailableBalance negDB "carol" = some (-100) ∧
    QueryUserAvailableShares negDB "carol" "A" = some (-4) ∧
    (-100 : Int) < 0 ∧ (-4 : Int) < 0 := by
  decide

/-- C3 (amended): when the computed difference is negative, both queries still
return it unchanged (no internal error, no clamping to zero). -/
theorem available_negative_passed_through (db : DB) (u s : String) :
    (∀ urow, db.users.filter (fun x => x.username == u) = [urow] →
      urow.money - buyReservedAmount db u < 0 →
      QueryUserAvailableBalance db u = some (urow.money - buyReservedAmount db u))
  ∧ (confirmedShares db u s - sellReservedAllSymbols db u < 0 →
      QueryUserAvailableShares db u s =
        some (confirmedShares db u s - sellReservedAllSymbols db u)) := by
  constructor
  · intro urow h _
    exact availableBalance_eq db u urow h
  · intro _
    exact availableShares_eq db u s

theorem available_negative_passed_through_witness :
    QueryUserAvailableBalance negDB "carol" =
      some (100 - buyReservedAmount negDB "carol") ∧
    QueryUserAvailableShares negDB "carol" "A" =
      some (confirmedShares negDB "carol" "A" -
            sellReservedAllSymbols negDB "carol") := by
  refine ⟨?_, ?_⟩
  · exact (available_negative_passed_through negDB "carol" "A").1 ⟨1, "carol", 100⟩
      (by decide) (by decide)
  · exact (available_negative_passed_through negDB "carol" "A").2 (by decide)

/-- `ORDER BY (time) DESC, rid DESC`: row `a` sorts strictly before row `b`. -/
def laterRes (a b : Reservation) : Bool :=
  decide (b.time < a.time) || (decide (a.time = b.time) && decide (b.rid < a.rid))

/-- SQL `ORDER BY (time) DESC, rid DESC LIMIT 1` over a list of rows: the row
that sorts first under `laterRes`, `none` on an empty row set (in which case
`QueryRow.Scan` fails with `ErrNoRows`). -/
def pickLatest : List Reservation → Option Reservation
  | [] => none
  | r :: rs =>
    match pickLatest rs with
    | none => some r
    | some best => some (if laterRes best r then best else r)

/-- `QueryLastReservation`: runs
`SELECT .. FROM reservations WHERE username=$1 and type=$2
 ORDER BY (time) DESC, rid DESC LIMIT 1` and scans the single row. -/
def QueryLastReservation (db : DB) (username : String) (resType : OrderType) :
    Option Reservation :=
  pickLatest (db.reservations.filter
    (fun r => r.username == username && r.order == resType))

theorem pickLatest_eq_none (l : List Reservation) :
    pickLatest l = none ↔ l = [] := by
  cases l with
  | nil => simp [pickLatest]
  | cons r rs =>
    cases h : pickLatest rs <;> simp [pickLatest, h]

theorem pickLatest_max (l : List Reservation) :
    l = [] ∨ ∃ r, pickLatest l = some r ∧ r ∈ l ∧
      ∀ x ∈ l, x.time < r.time ∨ (x.time = r.time ∧ x.rid ≤ r.rid) := by
  induction l with
  | nil => exact Or.inl rfl
  | cons r rs ih =>
    refine Or.inr ?_
    cases h : pickLatest rs with
    | none =>
      have hrs : rs = [] := (pickLatest_eq_none rs).mp h
      subst hrs
      refine ⟨r, by simp [pickLatest], by simp, ?_⟩
      intro x hx
      simp only [List.mem_singleton] at hx
      subst hx
      exact Or.inr ⟨rfl, le_refl _⟩
    | some best =>
      rcases ih with hnil | ⟨b, hb, hmem, hbound⟩
      · subst hnil; simp [pickLatest] at h
      · rw [h] at hb
        injection hb with hb
        subst hb
        by_cases hl : laterRes best r = true
        · refine ⟨best, by simp [pickLatest, h, hl], List.mem_cons_of_mem _ hmem, ?_⟩
          intro x hx
          rcases List.mem_cons.mp hx with hxr | hxs
          · subst hxr
            simp only [laterRes, Bool.or_eq_true, Bool.and_eq_true,
              decide_eq_true_eq] at hl
            omega
          · exact hbound x hxs
        · refine ⟨r, by simp [pickLatest, h, hl], List.mem_cons_self r rs, ?_⟩
          intro x hx
          rcases List.mem_cons.mp hx with hxr | hxs
          · subst hxr
            exact Or.inr ⟨rfl, le_refl _⟩
          · have hx2 := hbound x hxs
            simp only [laterRes, Bool.or_eq_true, Bool.and_eq_true,
              decide_eq_true_eq] at hl
            omega

/-- C7: `QueryLastReservation` fails exactly when the user has no reservation
of the requested type, and a returned reservation is one of the user's rows of
that type whose (creation time, id) pair is lexicographically maximal — the
most recently created wins, ties broken by greatest id. -/
theorem queryLastReservation_spec (db : DB) (u : String) (t : OrderType) :
    (QueryLastReservation db u t = none ↔
      db.reservations.filter (fun r => r.username == u && r.order == t) = [])
  ∧ (∀ r, QueryLastReservation db u t = some r →
      r ∈ db.reservations.filter (fun r => r.username == u && r.order == t) ∧
      ∀ x ∈ db.reservations.filter (fun r => r.username == u && r.order == t),
        x.time < r.time ∨ (x.time = r.time ∧ x.rid ≤ r.rid)) := by
  constructor
  · exact pickLatest_eq_none _
  · intro r hr
    rcases pickLatest_max
        (db.reservations.filter (fun r => r.username == u && r.order == t)) with
      hnil | ⟨b, hb, hmem, hbound⟩
    · rw [QueryLastReservation, hnil] at hr
      simp [pickLatest] at hr
    · rw [QueryLastReservation, hb] at hr
      injection hr with hr
      subst hr
      exact ⟨hmem, hbound⟩

/-- A reservation table exercising the last-reservation query: dave has three
BUY reservations, two tied on creation time 5 with ids 1 and 2. -/
def resDB : DB :=
  { users := []
    stocks := []
    reservations := [⟨1, "dave", "A", 1, 10, OrderType.BUY, 5⟩,
                     ⟨2, "dave", "B", 2, 20, OrderType.BUY, 5⟩,
                     ⟨3, "dave", "C", 3, 30, OrderType.BUY, 3⟩,
                     ⟨4, "dave", "D", 4, 40, OrderType.SELL, 9⟩,
                     ⟨5, "erin", "E", 5, 50, OrderType.BUY, 99⟩] }

theorem queryLastReservation_spec_witness :
    ((⟨2, "dave", "B", 2, 20, OrderType.BUY, 5⟩ : Reservation) ∈
      resDB.reservations.filter
        (fun r => r.username == "dave" && r.order == OrderType.BUY) ∧
     ∀ x ∈ resDB.reservations.filter
        (fun r => r.username == "dave" && r.order == OrderType.BUY),
       x.time < 5 ∨ (x.time = 5 ∧ x.rid ≤ 2)) ∧
    QueryLastReservation resDB "frank" OrderType.BUY = none := by
  constructor
  · have h := (queryLastReservation_spec resDB "dave" OrderType.BUY).2
      ⟨2, "dave", "B", 2, 20, OrderType.BUY, 5⟩ (by decide)
    exact h
  · exact ((queryLastReservation_spec resDB "frank" OrderType.BUY).1).mpr (by decide)

/-- Accumulator pass of Go's decimal-digit parsing: consumes the characters,
failing on any non-digit. -/
def parseDigitsAux : List Char → Nat → Option Nat
  | [], acc => some acc
  | c :: cs, acc =>
    if c.isDigit then parseDigitsAux cs (acc * 10 + (c.toNat - 48)) else none

/-- `strings.Split(payload, ",")[0]`: the characters before the first comma. -/
def splitFirst : List Char → List Char
  | [] => []
  | c :: cs => if c = ',' then [] else c :: splitFirst cs

/-- `strconv.ParseFloat` restricted to the plain non-negative decimal literals
the quote service emits (`"4.99"`), with float values modelled as exact
rationals. -/
def parseFloatQ (cs : List Char) : Option ℚ :=
  match cs.splitOn '.' with
  | [ics] =>
    match ics with
    | [] => none
    | _ => (parseDigitsAux ics 0).map (fun n => (n : ℚ))
  | [ics, fcs] =>
    match ics, fcs with
    | [], _ => none
    | _, [] => none
    | _, _ =>
      match parseDigitsAux ics 0, parseDigitsAux fcs 0 with
      | some i, some f => some ((i : ℚ) + (f : ℚ) / ((10 : ℚ) ^ fcs.length))
      | _, _ => none
  | _ => none

/-- `strconv.ParseFloat(strings.Split(string(quoteStr), ",")[0], 64)` with the
parse error discarded (`quote, _ := ...`), so an unparsable field leaves the
zero value. -/
def parseQuotePrice (payload : List Char) : ℚ :=
  (parseFloatQ (splitFirst payload)).getD 0

/-- A row of the trigger scan
`SELECT username, symbol, type, shares, amount, trigger_price FROM triggers`,
scanned into `sql.NullInt64` / `sql.NullFloat64` columns (`none` is SQL NULL;
float columns modelled as exact rationals). -/
structure TriggerRow where
  username : String
  symbol : String
  orderType : String
  shares : Option Int
  amount : Option ℚ
  triggerPrice : Option ℚ
deriving DecidableEq, Repr

/-- The fire-and-forget
`GET /api/executeTrigger/username/symbol/shares/amount/triggerPrice/orderType`
emitted when a trigger matches. -/
structure ExecRequest where
  username : String
  symbol : String
  shares : Int
  amount : ℚ
  triggerPrice : ℚ
  orderType : String
deriving DecidableEq, Repr

/-- `QueryAndExecuteCurrentTriggers` (the commented-out reference loop): scans
triggers whose `trigger_price` and `amount` are both non-NULL (the SQL WHERE
clause); for each, when `(isSell && shares > 0) || (!isSell && triggerValue > 0)`
it fetches a quote (`getQuote`, `none` on fetch error, which is logged and the
row skipped), and emits one execution request when
`quote <= triggerValue` — the same `<=` comparison for SELL and BUY rows.
Null columns read through `.Int64` / `.Float64` yield the zero value. -/
def QueryAndExecuteCurrentTriggers (triggers : List TriggerRow)
    (getQuote : String → String → Option (List Char)) : List ExecRequest :=
  (triggers.filter (fun t => t.triggerPrice.isSome && t.amount.isSome)).filterMap
    (fun t =>
      let shares := t.shares.getD 0
      let amount := t.amount.getD 0
      let triggerValue := t.triggerPrice.getD 0
      let isSell := t.orderType == "sell"
      if (isSell && decide (0 < shares)) || (!isSell && decide (0 < triggerValue)) then
        match getQuote t.username t.symbol with
        | some payload =>
          if parseQuotePrice payload ≤ triggerValue then
            some ⟨t.username, t.symbol, shares, amount, triggerValue, t.orderType⟩
          else none
        | none => none
      else none)

/-- An armed SELL trigger at trigger price 5.00 with a positive share count. -/
def sellTrig : TriggerRow :=
  { username := "alice"
    symbol := "S"
    orderType := "sell"
    shares := some 1
    amount := some 5
    triggerPrice := some 5 }

/-- The quote payload "4.99,sig" as characters. -/
def quote499 : List Char :=
  '4' :: '.' :: '9' :: '9' :: ',' :: 's' :: 'i' :: 'g' :: []

/-- The quote payload "5.01,sig" as characters. -/
def quote501 : List Char :=
  '5' :: '.' :: '0' :: '1' :: ',' :: 's' :: 'i' :: 'g' :: []

/-- C4: the reference loop fires a SELL trigger when the quote is `<=` the
trigger price, the reverse of the specified `>=` semantics: at trigger price
5.00 a quote payload `"4.99,..."` emits an execution request, while
`"5.01,..."` emits nothing. -/
theorem trigger_sell_comparison_bug :
    QueryAndExecuteCurrentTriggers [sellTrig] (fun _ _ => some quote499) =
      [{ username := "alice", symbol := "S", shares := 1, amount := 5,
         triggerPrice := 5, orderType := "sell" }] ∧
    QueryAndExecuteCurrentTriggers [sellTrig] (fun _ _ => some quote501) = [] := by
  have hle : parseQuotePrice quote499 ≤ (5 : ℚ) := by
    show ((4 : ℚ) + (99 : ℚ) / ((10 : ℚ) ^ (2 : Nat)) ≤ 5)
    norm_num
  have hgt : ¬ parseQuotePrice quote501 ≤ (5 : ℚ) := by
    show ¬ ((5 : ℚ) + (1 : ℚ) / ((10 : ℚ) ^ (2 : Nat)) ≤ 5)
    norm_num
  constructor
  · simp [QueryAndExecuteCurrentTriggers, sellTrig, hle, List.filterMap_cons]
  · simp [QueryAndExecuteCurrentTriggers, sellTrig, hgt, List.filterMap_cons]

/-- Go `type Command string`. -/
abbrev Command := String

/-- The `validCommands` membership map: the sixteen recognized commands. -/
def validCommands : List Command :=
  ["ADD", "QUOTE", "BUY", "COMMIT_BUY", "CANCEL_BUY", "SELL", "COMMIT_SELL",
   "CANCEL_SELL", "SET_BUY_AMOUNT", "CANCEL_SET_BUY", "SET_BUY_TRIGGER",
   "SET_SELL_AMOUNT", "SET_SELL_TRIGGER", "CANCEL_SET_SELL", "DUMPLOG",
   "DISPLAY_SUMMARY"]

/-- The `userCommand` variant of a log record. -/
structure UserCommandType where
  timestamp : String
  server : String
  transactionNumber : String
  command : Command
  username : String
  symbol : String
  filename : String
  funds : String
deriving DecidableEq, Repr

/-- The `quoteServer` variant of a log record. -/
structure QuoteServerType where
  timestamp : String
  server : String
  transactionNumber : String
  quoteServerTime : String
  username : String
  stockSymbol : String
  price : String
  cryptoKey : String
deriving DecidableEq, Repr

/-- `LogType` one-of record, restricted to the two variants the logger
constructs (`LogCommand` builds a `userCommand`, `LogQuoteServ` a
`quoteServer`; the other three variants are dead code). -/
inductive LogEntry where
  | userCommand (v : UserCommandType)
  | quoteServer (v : QuoteServerType)
deriving DecidableEq, Repr

/-- `const server = "transaction"`. -/
def server : String := "transaction"

/-- `strconv.Atoi`: an optional single sign followed by at least one decimal
digit; anything else is a parse error (the int64 range check is not needed at
the values the claims use and is not modelled). -/
def atoi (s : String) : Option Int :=
  match s.toList with
  | [] => none
  | '+' :: cs =>
    match cs with
    | [] => none
    | _ => (parseDigitsAux cs 0).map (fun n => (n : Int))
  | '-' :: cs =>
    match cs with
    | [] => none
    | _ => (parseDigitsAux cs 0).map (fun n => -(n : Int))
  | cs => (parseDigitsAux cs 0).map (fun n => (n : Int))

/-- `fmt.Sprintf` `%d` rendering of a Go int. -/
def intRepr (i : Int) : String :=
  if i < 0 then "-" ++ Nat.repr i.natAbs else Nat.repr i.toNat

/-- `formatBalance`: `strconv.Atoi` the input — a parse error panics, modelled
as `none` — then render `fmt.Sprintf("%d.%d", b/100, b%100)`; Go `/` and `%`
truncate toward zero (`Int.tdiv` / `Int.tmod`). -/
def formatBalance (balance : String) : Option String :=
  match atoi balance with
  | none => none
  | some b => some (intRepr (b.tdiv 100) ++ "." ++ intRepr (b.tmod 100))

/-- Outcome of the `xsd`/`libxml2` validation pipeline inside `validateSchema`:
which of its early-return branches is taken.  The external library calls are
out of scope, so the outcome is an input of the model. -/
inductive ValidationOutcome where
  | openFailed (msg : String)
  | readFailed (msg : String)
  | xsdParseFailed (msg : String)
  | xmlParseFailed (msg : String)
  | invalid (errs : List String)
  | valid
deriving DecidableEq, Repr

/-- `validateSchema`: every branch only prints to stdout and returns; the
function never touches the log file and has no error result.  The returned
list is the sequence of console messages. -/
def validateSchema : ValidationOutcome → List String
  | .openFailed msg => ["failed to open file: " ++ msg]
  | .readFailed msg => ["failed to read file: " ++ msg]
  | .xsdParseFailed msg => ["failed to parse XSD: " ++ msg]
  | .xmlParseFailed msg => ["failed to parse XML: " ++ msg]
  | .invalid errs => errs.map (fun e => "error: " ++ e)
  | .valid => ["xml validation successful!"]

/-- Observable actions of a logging call, in program order. -/
inductive Event where
  | fileWrite (e : LogEntry)
  | console (msg : String)
deriving DecidableEq, Repr

/-- Result of a logging call: the log-file state (`none` = file absent) and
the ordered events the call performed. -/
structure LogResult where
  fs : Option (List LogEntry)
  events : List Event
deriving DecidableEq, Repr

/-- The `UserCommandType` value assembled by `LogCommand`: zero-valued fields,
then each of the five optional `vars` entries copied in when present; the
`amount` entry goes through `formatBalance`, whose panic aborts the call
(`none` here). -/
def buildUserCommand (command : Command) (vars : String → Option String)
    (timestamp : String) : Option UserCommandType :=
  let v0 : UserCommandType :=
    { timestamp := timestamp, server := server, transactionNumber := "",
      command := command, username := "", symbol := "", filename := "",
      funds := "" }
  let v1 := match vars "trans" with
    | some val => { v0 with transactionNumber := val }
    | none => v0
  let v2 := match vars "username" with
    | some val => { v1 with username := val }
    | none => v1
  let v3 := match vars "symbol" with
    | some val => { v2 with symbol := val }
    | none => v2
  let v4 := match vars "filename" with
    | some val => { v3 with filename := val }
    | none => v3
  match vars "amount" with
  | some val =>
    match formatBalance val with
    | some f => some { v4 with funds := f }
    | none => none
  | none => some v4

/-- `LogCommand`: unrecognized commands are filtered out before anything else
happens (no file open, no write, no error).  For recognized commands the log
file is opened with `O_APPEND|O_WRONLY` — which panics when the file does not
exist (`fs = none`) — the record is built (a `formatBalance` panic aborts),
marshalled, written to the file, and only then `validateSchema` runs; its
outcome changes nothing about the file. -/
def LogCommand (command : Command) (vars : String → Option String)
    (timestamp : String) (outcome : ValidationOutcome)
    (fs : Option (List LogEntry)) : Except String LogResult :=
  if validCommands.contains command then
    match fs with
    | none => Except.error "panic: open log.xsd: no such file or directory"
    | some entries =>
      match buildUserCommand command vars timestamp with
      | none => Except.error "panic: strconv.Atoi: invalid syntax"
      | some v =>
        let entry := LogEntry.userCommand v
        Except.ok { fs := some (entries ++ [entry]),
                    events := Event.fileWrite entry ::
                      (validateSchema outcome).map Event.console }
  else
    Except.ok { fs := fs, events := [] }

/-- `LogQuoteServ`: opens the log file with `O_APPEND|O_WRONLY` (panics when
absent), builds the `quoteServer` record, writes it, then runs
`validateSchema`. -/
def LogQuoteServ (username price stocksymbol quoteTimestamp cryptokey
    trans timestamp : String) (outcome : ValidationOutcome)
    (fs : Option (List LogEntry)) : Except String LogResult :=
  match fs with
  | none => Except.error "panic: open log.xsd: no such file or directory"
  | some entries =>
    let entry := LogEntry.quoteServer
      { timestamp := timestamp, server := server, transactionNumber := trans,
        quoteServerTime := quoteTimestamp, username := username,
        stockSymbol := stocksymbol, price := price, cryptoKey := cryptokey }
    Except.ok { fs := some (entries ++ [entry]),
                events := Event.fileWrite entry ::
                  (validateSchema outcome).map Event.console }

/-- `InitLogger`: `os.Create` creates or truncates the log file; a creation
error (`createOk = false`) is checked and silently discarded — the function
body just returns, reporting nothing, and it has no error result. -/
def InitLogger (createOk : Bool) (fs : Option (List LogEntry)) :
    Option (List LogEntry) :=
  if createOk then some [] else fs

theorem intRepr_natCast (n : Nat) : intRepr (n : Int) = Nat.repr n := by
  unfold intRepr
  rw [if_neg (Int.not_lt.mpr (Int.natCast_nonneg n))]
  simp

/-- C8: the monetary formatter maps the minor-unit string "12345" to the
fixed-point string "123.45". -/
theorem formatBalance_round_trip : formatBalance "12345" = some "123.45" := by
  decide

/-- C9: on any input parsing to a non-negative integer `n`, `formatBalance`
renders `n / 100`, a dot, and `n % 100` with no zero-padding of the minor
part: `"5"` becomes `"0.5"` and `"12305"` becomes `"123.5"`, not `"123.05"`. -/
theorem formatBalance_no_minor_padding :
    (∀ (s : String) (n : Nat), atoi s = some (n : Int) →
      formatBalance s =
        some (Nat.repr (n / 100) ++ "." ++ Nat.repr (n % 100))) ∧
    formatBalance "5" = some "0.5" ∧
    formatBalance "12305" = some "123.5" := by
  refine ⟨?_, by decide, by decide⟩
  intro s n h
  simp only [formatBalance, h]
  rw [show ((n : Int).tdiv 100) = ((n / 100 : Nat) : Int) from rfl,
    show ((n : Int).tmod 100) = ((n % 100 : Nat) : Int) from rfl,
    intRepr_natCast, intRepr_natCast]

theorem formatBalance_no_minor_padding_witness :
    formatBalance "5" = some (Nat.repr (5 / 100) ++ "." ++ Nat.repr (5 % 100)) :=
  formatBalance_no_minor_padding.1 "5" 5 rfl

/-- C5: a command outside the sixteen-element recognized set writes nothing —
no file access, no console output — and returns without error, whatever the
field map and file state. -/
theorem logCommand_unrecognized (command : Command) (vars : String → Option String)
    (timestamp : String) (outcome : ValidationOutcome)
    (fs : Option (List LogEntry)) (h : command ∉ validCommands) :
    LogCommand command vars timestamp outcome fs =
      Except.ok { fs := fs, events := [] } := by
  have hc : validCommands.contains command = false := by simpa using h
  simp only [LogCommand]
  rw [hc]
  rfl

theorem logCommand_unrecognized_witness :
    LogCommand "TRADE" (fun _ => some "oops") "0" ValidationOutcome.valid none =
      Except.ok { fs := none, events := [] } :=
  logCommand_unrecognized "TRADE" (fun _ => some "oops") "0"
    ValidationOutcome.valid none (by decide)

/-- C6: every append that `LogCommand` (on a recognized command) or
`LogQuoteServ` completes writes the record to the file first — the write is
the head event, the validation messages follow — and the resulting file
contains the appended record for every validation outcome: a validation
failure is reported on the console but never rolls the record back. -/
theorem log_append_write_ahead :
    (∀ (command : Command) (vars : String → Option String)
       (timestamp : String) (outcome : ValidationOutcome)
       (entries : List LogEntry) (res : LogResult),
       command ∈ validCommands →
       LogCommand command vars timestamp outcome (some entries) = Except.ok res →
       ∃ e, res.fs = some (entries ++ [e]) ∧
         res.events = Event.fileWrite e ::
           (validateSchema outcome).map Event.console)
  ∧ (∀ (username price stocksymbol quoteTimestamp cryptokey trans
        timestamp : String) (outcome : ValidationOutcome)
       (entries : List LogEntry) (res : LogResult),
       LogQuoteServ username price stocksymbol quoteTimestamp cryptokey trans
         timestamp outcome (some entries) = Except.ok res →
       ∃ e, res.fs = some (entries ++ [e]) ∧
         res.events = Event.fileWrite e ::
           (validateSchema outcome).map Event.console) := by
  constructor
  · intro command vars timestamp outcome entries res hcmd h
    have hc : validCommands.contains command = true := by simpa using hcmd
    simp only [LogCommand, hc, if_true] at h
    cases hb : buildUserCommand command vars timestamp with
    | none => simp [hb] at h
    | some v =>
      simp only [hb, Except.ok.injEq] at h
      exact ⟨LogEntry.userCommand v, by rw [← h], by rw [← h]⟩
  · intro username price stocksymbol quoteTimestamp cryptokey trans
      timestamp outcome entries res h
    simp only [LogQuoteServ, Except.ok.injEq] at h
    refine ⟨LogEntry.quoteServer
      { timestamp := timestamp, server := server, transactionNumber := trans,
        quoteServerTime := quoteTimestamp, username := username,
        stockSymbol := stocksymbol, price := price, cryptoKey := cryptokey },
      by rw [← h], by rw [← h]⟩

/-- The record `LogCommand "ADD"` builds with an empty field map at
timestamp 7. -/
def addEntry : LogEntry :=
  LogEntry.userCommand
    { timestamp := "7", server := server, transactionNumber := "",
      command := "ADD", username := "", symbol := "", filename := "",
      funds := "" }

theorem log_append_write_ahead_witness :
    ∃ e, (LogResult.mk (some [addEntry])
        (Event.fileWrite addEntry ::
          (validateSchema (ValidationOutcome.invalid ["boom"])).map
            Event.console)).fs = some ([] ++ [e]) ∧
      (LogResult.mk (some [addEntry])
        (Event.fileWrite addEntry ::
          (validateSchema (ValidationOutcome.invalid ["boom"])).map
            Event.console)).events =
        Event.fileWrite e ::
          (validateSchema (ValidationOutcome.invalid ["boom"])).map
            Event.console :=
  log_append_write_ahead.1 "ADD" (fun _ => none) "7"
    (ValidationOutcome.invalid ["boom"]) [] _ (by decide) rfl

/-- C10: recognized `LogCommand` calls and every `LogQuoteServ` call open the
log file append-only without creating it, so they panic whenever the file is
absent; only `InitLogger` creates (and truncates) the file, and a creation
failure is silently discarded, leaving the state untouched — `InitLogger`
reports no error in either case. -/
theorem log_file_must_exist :
    (∀ (command : Command) (vars : String → Option String)
       (timestamp : String) (outcome : ValidationOutcome),
       command ∈ validCommands →
       LogCommand command vars timestamp outcome none =
         Except.error "panic: open log.xsd: no such file or directory")
  ∧ (∀ (username price stocksymbol quoteTimestamp cryptokey trans
        timestamp : String) (outcome : ValidationOutcome),
       LogQuoteServ username price stocksymbol quoteTimestamp cryptokey trans
         timestamp outcome none =
         Except.error "panic: open log.xsd: no such file or directory")
  ∧ (∀ fs, InitLogger true fs = some [] ∧ InitLogger false fs = fs) := by
  refine ⟨?_, ?_, ?_⟩
  · intro command vars timestamp outcome hcmd
    have hc : validCommands.contains command = true := by simpa using hcmd
    simp only [LogCommand]
    rw [hc]
    rfl
  · intro username price stocksymbol quoteTimestamp cryptokey trans
      timestamp outcome
    rfl
  · intro fs
    exact ⟨rfl, rfl⟩

theorem log_file_must_exist_witness :
    LogCommand "BUY" (fun _ => none) "0" ValidationOutcome.valid none =
      Except.error "panic: open log.xsd: no such file or directory" ∧
    LogQuoteServ "u" "1.00" "S" "t" "k" "1" "0" ValidationOutcome.valid none =
      Except.error "panic: open log.xsd: no such file or directory" :=
  ⟨log_file_must_exist.1 "BUY" (fun _ => none) "0" ValidationOutcome.valid
      (by decide),
   log_file_must_exist.2.1 "u" "1.00" "S" "t" "k" "1" "0"
      ValidationOutcome.valid⟩

end TransService
